import Mathlib

/-!
Verification development for the conan-based build-environment provisioner
(`src/lib/buildenvsetup/ceconan.ts`, class `BuildEnvSetupCeConanDirect`).

The TypeScript source is shallowly embedded below:

* Node's POSIX `path` functions (`join`, `normalize`, `dirname`, `basename`,
  `resolve`) are modelled over plain strings with `/` separators, exactly the
  subset of their behaviour the source exercises (no trailing-slash
  preservation, single-argument `resolve` against an explicit current working
  directory).
* Stateful / asynchronous code is modelled by explicit state passing: the
  remote conan repository and the archive contents are an explicit `ConanWorld`
  oracle, and network / filesystem side effects are reified as event lists.
* Fallible code returns `Except` / `Option`.
-/

set_option autoImplicit false

namespace CeConan

/-! ## Path model (Node `path.posix` as used by the source) -/

/-- Split a character list on `/`, keeping empty segments (as
`"a//b".split("/")` would). -/
def splitSlashAux : List Char → List Char → List String
  | [], cur => [String.mk cur.reverse]
  | c :: cs, cur =>
    if c = '/' then String.mk cur.reverse :: splitSlashAux cs []
    else splitSlashAux cs (c :: cur)

/-- Split a string into its `/`-separated segments (empty segments kept). -/
def splitOnSlash (s : String) : List String :=
  splitSlashAux s.toList []

/-- Join segments back together with `/` separators. -/
def joinSegs : List String → String
  | [] => ""
  | [s] => s
  | s :: rest => s ++ "/" ++ joinSegs rest

/-- Character-list prefix test. -/
def charsLe : List Char → List Char → Bool
  | [], _ => true
  | _ :: _, [] => false
  | a :: as, b :: bs => a = b && charsLe as bs

/-- JavaScript's `s.startsWith(p)` (= string prefix test); this is the exact
check the source performs on the resolved destination directory. -/
def strStartsWith (s p : String) : Bool :=
  charsLe p.toList s.toList

/-- Core of Node's `path.normalize`: process `.` and `..` segments.  `acc`
holds the already-emitted segments in reverse.  For an absolute path a leading
`..` is dropped; for a relative path it is kept. -/
def normSegsAux (abs : Bool) : List String → List String → List String
  | acc, [] => acc.reverse
  | acc, s :: rest =>
    if s = "" ∨ s = "." then normSegsAux abs acc rest
    else if s = ".." then
      match acc with
      | [] => normSegsAux abs (if abs then [] else [".."]) rest
      | t :: ts =>
        if t = ".." then normSegsAux abs (s :: t :: ts) rest
        else normSegsAux abs ts rest
    else normSegsAux abs (s :: acc) rest

/-- Node `path.posix.normalize` (without trailing-slash preservation, which the
source never relies on). -/
def pathNormalize (p : String) : String :=
  let abs := strStartsWith p "/"
  let segs := normSegsAux abs [] (splitOnSlash p)
  if abs then "/" ++ joinSegs segs
  else if segs = [] then "." else joinSegs segs

/-- Node `path.posix.join`: concatenate the non-empty parts with `/` and
normalize the result. -/
def pathJoin (parts : List String) : String :=
  let joined := joinSegs (parts.filter (fun s => ¬(s = "")))
  if joined = "" then "." else pathNormalize joined

/-- Node `path.posix.basename`. -/
def pathBasename (p : String) : String :=
  let segs := (splitOnSlash p).filter (fun s => ¬(s = ""))
  match segs.getLast? with
  | some s => s
  | none => ""

/-- Node `path.posix.dirname`, for the normalized paths the source feeds it. -/
def pathDirname (p : String) : String :=
  let abs := strStartsWith p "/"
  let segs := (splitOnSlash p).filter (fun s => ¬(s = ""))
  let front := segs.dropLast
  if segs = [] then (if abs then "/" else ".")
  else if abs then (if front = [] then "/" else "/" ++ joinSegs front)
  else (if front = [] then "." else joinSegs front)

/-- Node `path.resolve` with a single path argument, made explicit in the
current working directory it would otherwise read from the process. -/
def pathResolve (cwd p : String) : String :=
  if strStartsWith p "/" then pathNormalize p
  else pathNormalize (cwd ++ "/" ++ p)

/-- The claim's notion of a canonical directory lying under a root directory:
it is the root itself or a descendant of it.  (This follows the spec's words;
the source's check is `strStartsWith` instead.) -/
def dirLiesUnder (dir root : String) : Bool :=
  dir = root || strStartsWith dir (root ++ "/")

/-! ## Build descriptor and package matcher
(`ConanBuildProperties`, `getConanBuildProperties`, `findMatchingHash`) -/

/-- The eight attribute keys of a `ConanBuildProperties` record
(`'compiler.version'` is `compilerVersion`, `'compiler.libcxx'` is
`compilerLibcxx`). -/
inductive ConanAttr where
  | os
  | build_type
  | compiler
  | compilerVersion
  | compilerLibcxx
  | arch
  | stdver
  | flagcollection
deriving DecidableEq

/-- All attribute keys, in the order of the source's record literal. -/
def conanAttrs : List ConanAttr :=
  [ConanAttr.os, ConanAttr.build_type, ConanAttr.compiler, ConanAttr.compilerVersion,
   ConanAttr.compilerLibcxx, ConanAttr.arch, ConanAttr.stdver, ConanAttr.flagcollection]

/-- `ConanBuildProperties` (source lines 39-48): a flat record of eight string
attributes. -/
structure ConanBuildProperties where
  os : String
  build_type : String
  compiler : String
  compilerVersion : String
  compilerLibcxx : String
  arch : String
  stdver : String
  flagcollection : String
deriving DecidableEq

/-- Attribute lookup on a build-properties record. -/
def ConanBuildProperties.get (p : ConanBuildProperties) : ConanAttr → String
  | ConanAttr.os => p.os
  | ConanAttr.build_type => p.build_type
  | ConanAttr.compiler => p.compiler
  | ConanAttr.compilerVersion => p.compilerVersion
  | ConanAttr.compilerLibcxx => p.compilerLibcxx
  | ConanAttr.arch => p.arch
  | ConanAttr.stdver => p.stdver
  | ConanAttr.flagcollection => p.flagcollection

/-- The `settings` mapping of a repository candidate package.  Each attribute
may be absent (`none`), matching JavaScript's `elem.settings[key]` being
`undefined`. -/
structure CandidateSettings where
  os : Option String
  build_type : Option String
  compiler : Option String
  compilerVersion : Option String
  compilerLibcxx : Option String
  arch : Option String
  stdver : Option String
  flagcollection : Option String
deriving DecidableEq

/-- Attribute lookup on a candidate's settings (`elem.settings[key]`). -/
def CandidateSettings.get (s : CandidateSettings) : ConanAttr → Option String
  | ConanAttr.os => s.os
  | ConanAttr.build_type => s.build_type
  | ConanAttr.compiler => s.compiler
  | ConanAttr.compilerVersion => s.compilerVersion
  | ConanAttr.compilerLibcxx => s.compilerLibcxx
  | ConanAttr.arch => s.arch
  | ConanAttr.stdver => s.stdver
  | ConanAttr.flagcollection => s.flagcollection

/-- The per-attribute body of the matcher's predicate (source lines 239-247):

    if ((key === 'compiler' || key === 'compiler.version') && elem.settings[key] === 'cshared') return true;
    else if (key === 'compiler.libcxx' && elem.settings['compiler'] === 'cshared') return true;
    else return val === elem.settings[key];
-/
def matchesAttribute (props : ConanBuildProperties) (settings : CandidateSettings)
    (key : ConanAttr) : Bool :=
  if (key = ConanAttr.compiler ∨ key = ConanAttr.compilerVersion)
      ∧ settings.get key = some "cshared" then
    true
  else if key = ConanAttr.compilerLibcxx ∧ settings.get ConanAttr.compiler = some "cshared" then
    true
  else
    decide (some (props.get key) = settings.get key)

/-- `_.all(buildProperties, (val, key) => ...)`: every attribute of the build
properties must satisfy `matchesAttribute`. -/
def matchesBuildProperties (props : ConanBuildProperties) (settings : CandidateSettings) : Bool :=
  conanAttrs.all (matchesAttribute props settings)

/-- `findMatchingHash` (source lines 237-249): `_.findKey(possibleBuilds, ...)`
over the candidate mapping, in iteration order, returning the hash of the
first candidate whose settings match every attribute. -/
def findMatchingHash (props : ConanBuildProperties) :
    List (String × CandidateSettings) → Option String
  | [] => none
  | (hash, settings) :: rest =>
    if matchesBuildProperties props settings then some hash
    else findMatchingHash props rest

/-- Candidate settings equal to the build properties attribute-for-attribute
(the exact-match situation of the spec's testable properties). -/
def settingsExactlyEqual (props : ConanBuildProperties) (s : CandidateSettings) : Bool :=
  conanAttrs.all (fun a => s.get a = some (props.get a))

/-! ## Secure archive extractor
(`getDestinationFilepath`, `downloadAndExtractPackage`, source lines 116-166) -/

/-- The fields of a tar entry header the source reads: `header.name` and
`header.size`. -/
structure TarHeader where
  name : String
  size : Nat
deriving DecidableEq

/-- Observable filesystem effects of extracting one archive:

* `skippedZipSlip` — the entry failed the path check; its stream was drained
  and nothing was written (source lines 136-141);
* `mkdir` — `mkdirp(path.dirname(filepath))` (source line 144);
* `wroteFile p n` — `fs.createWriteStream(filepath)` created the file at `p`
  and `n` bytes were streamed into it (`n = 0` leaves the created file empty,
  source lines 147-161). -/
inductive ExtractEvent where
  | skippedZipSlip (entryName : String)
  | mkdir (dir : String)
  | wroteFile (filepath : String) (size : Nat)
deriving DecidableEq

/-- `getDestinationFilepath` (source lines 116-123). -/
def getDestinationFilepath (extractAllToRoot : Bool)
    (downloadPath zippedPath libId : String) : String :=
  if extractAllToRoot then
    let filename := pathBasename zippedPath
    pathJoin [downloadPath, filename]
  else
    pathJoin [downloadPath, libId, zippedPath]

/-- The `'entry'` handler of `downloadAndExtractPackage` (source lines
131-166) for a single tar entry, as the list of filesystem effects it
produces. -/
def processEntry (extractAllToRoot : Bool) (cwd downloadPath libId : String)
    (h : TarHeader) : List ExtractEvent :=
  let filepath := getDestinationFilepath extractAllToRoot downloadPath h.name libId
  let resolved := pathResolve cwd (pathDirname filepath)
  if !(strStartsWith resolved downloadPath) then
    [ExtractEvent.skippedZipSlip h.name]
  else
    (if extractAllToRoot then [] else [ExtractEvent.mkdir (pathDirname filepath)])
      ++ [ExtractEvent.wroteFile filepath h.size]

/-- One archive's entries are processed strictly sequentially; `extractEntries`
is the concatenated effect trace of the whole archive. -/
def extractEntries (extractAllToRoot : Bool) (cwd downloadPath libId : String) :
    List TarHeader → List ExtractEvent
  | [] => []
  | h :: rest =>
    processEntry extractAllToRoot cwd downloadPath libId h
      ++ extractEntries extractAllToRoot cwd downloadPath libId rest

/-! ## Repository client and provisioning orchestrator
(`getAllPossibleBuilds`, `getPackageUrl`, `download`, `setup`) -/

/-- JavaScript `a || b` on an optional string (`undefined` and `""` are both
falsy). -/
def jsOr (v : Option String) (dflt : String) : String :=
  match v with
  | none => dflt
  | some s => if s = "" then dflt else s

/-- JavaScript truthiness of an optional string configuration value
(`props('host', false)` yields `none` when unset). -/
def jsTruthyStr (v : Option String) : Bool :=
  match v with
  | none => false
  | some s => !(s = "")

/-- One entry of the `libraryDetails` record passed to `download` / `setup`;
only the fields the source reads. -/
structure LibraryVersionDetails where
  version : String
  lookupname : Option String
  lookupversion : Option String
  packagedheaders : Bool
deriving DecidableEq

/-- The constructor's inputs (source lines 59-65): the two `buildenvsetup`
properties, plus the behaviour inherited from `BuildEnvSetupBase` (which lives
outside this core and is kept abstract as supplied functions). -/
structure CompilerInfo where
  buildenvsetupHost : Option String
  buildenvsetupOnlyOnStaticLibLink : Bool
  compilerTypeOrGCC : String
  compilerId : String
  getTarget : String → String
  getLibcxx : String → String
  hasBinariesToLink : LibraryVersionDetails → Bool
  shouldDownloadPackage : LibraryVersionDetails → Bool

/-- The state of a `BuildEnvSetupCeConanDirect` instance after construction. -/
structure BuildEnvSetupCeConanDirect where
  host : Option String
  onlyonstaticliblink : Bool
  extractAllToRoot : Bool
  compilerTypeOrGCC : String
  compilerId : String
  getTarget : String → String
  getLibcxx : String → String
  hasBinariesToLink : LibraryVersionDetails → Bool
  shouldDownloadPackage : LibraryVersionDetails → Bool

/-- The constructor (source lines 59-65): reads `host` and
`onlyonstaticliblink` from the properties and sets `extractAllToRoot` to
`false`.  No other code in the class assigns these fields, so every operation
below reads them from this immutable state. -/
def mkBuildEnvSetupCeConanDirect (info : CompilerInfo) : BuildEnvSetupCeConanDirect :=
  { host := info.buildenvsetupHost
    onlyonstaticliblink := info.buildenvsetupOnlyOnStaticLibLink
    extractAllToRoot := false
    compilerTypeOrGCC := info.compilerTypeOrGCC
    compilerId := info.compilerId
    getTarget := info.getTarget
    getLibcxx := info.getLibcxx
    hasBinariesToLink := info.hasBinariesToLink
    shouldDownloadPackage := info.shouldDownloadPackage }

/-- `getConanBuildProperties` (source lines 219-235). -/
def getConanBuildProperties (self : BuildEnvSetupCeConanDirect) (key : String) :
    ConanBuildProperties :=
  let arch := self.getTarget key
  let libcxx := self.getLibcxx key
  let stdver := ""
  let flagcollection := ""
  { os := "Linux"
    build_type := "Debug"
    compiler := self.compilerTypeOrGCC
    compilerVersion := self.compilerId
    compilerLibcxx := libcxx
    arch := arch
    stdver := stdver
    flagcollection := flagcollection }

/-- Outcome of the repository's listing endpoint for one library/version pair
(`getAllPossibleBuilds`, source lines 67-92): a 404 response rejects with
`Not found`, a transport failure rejects with the error, and any other
response resolves with the hash-to-settings mapping of its JSON body. -/
inductive ConanListingResponse where
  | notFound
  | transportError
  | ok (builds : List (String × CandidateSettings))
deriving DecidableEq

/-- The remote world the orchestrator runs against: the repository's listing
endpoint, the `conan_package.tgz` field of each `download_urls` response, and
the tar entries behind each archive URL (`none` models a failed fetch,
gunzip, tar or write stream, all of which reject the extraction promise). -/
structure ConanWorld where
  listing : String → String → ConanListingResponse
  packageTgzUrl : String → String → String → Option String
  archive : String → Option (List TarHeader)

/-- `this.getAllPossibleBuilds(...).catch(() => false)` (source line 264): a
rejected listing (404 or transport failure) becomes the falsy value `false`,
i.e. `none`; any resolved body is kept. -/
def caughtListing (r : ConanListingResponse) : Option (List (String × CandidateSettings)) :=
  match r with
  | ConanListingResponse.notFound => none
  | ConanListingResponse.transportError => none
  | ConanListingResponse.ok builds => some builds

/-- `getPackageUrl` (source lines 94-114): read `body['conan_package.tgz']`
and throw when it is falsy (absent or empty). -/
def getPackageUrl (world : ConanWorld) (libid version hash : String) : Except String String :=
  let packageURL := world.packageTgzUrl libid version hash
  match packageURL with
  | none => Except.error "Unable to get package download URL from conan."
  | some u =>
    if u = "" then Except.error "Unable to get package download URL from conan."
    else Except.ok u

/-- One element of `allLibraryBuilds` (source lines 255-267), minus the
pending listing promise, which the `ConanWorld` answers. -/
structure RetainedLib where
  id : String
  version : String
  lookupname : Option String
  lookupversion : Option String
deriving DecidableEq

/-- The `_.each` filter of `download` (source lines 255-267): keep the
libraries with packaged headers or binaries to link, in record order. -/
def retainedLibs (self : BuildEnvSetupCeConanDirect)
    (libraryDetails : List (String × LibraryVersionDetails)) : List RetainedLib :=
  libraryDetails.filterMap fun p =>
    if p.2.packagedheaders || self.hasBinariesToLink p.2 then
      some { id := p.1, version := p.2.version, lookupname := p.2.lookupname,
             lookupversion := p.2.lookupversion }
    else none

/-- `BuildEnvDownloadInfo` as produced at source lines 175-179 (the elapsed
wall-clock `time` field is environment-dependent and excluded from the
model). -/
structure BuildEnvDownloadInfo where
  step : String
  packageUrl : String
deriving DecidableEq

/-- The failure modes of one dispatched download task. -/
inductive DownloadError where
  | missingDownloadUrl
  | fetchOrExtractError (url : String)
deriving DecidableEq

/-- Result of the matching/downloading loop body for one retained library. -/
inductive LibResult where
  | skip
  | ok (info : BuildEnvDownloadInfo)
  | err (e : DownloadError)
deriving DecidableEq

/-- Network and log events of one provisioning run. -/
inductive ConanEvent where
  | listingQuery (name version : String)
  | warnNotAvailable (name version : String)
  | warnNoMatch (name version : String)
  | downloadUrlQuery (name version hash : String)
  | archiveFetch (url : String)
  | fs (e : ExtractEvent)
deriving DecidableEq

/-- The body of `download`'s second loop for one retained library (source
lines 271-291), together with the download task it pushes (source lines
280-284): await the caught listing; a falsy value warns `not available` and
skips; an unmatched build-properties record warns `No build found` and skips;
a matched hash resolves the package URL (fatal when the repository has no
`conan_package.tgz` entry) and fetches/extracts the archive (fatal when the
fetch or any stream fails). -/
def processLib (self : BuildEnvSetupCeConanDirect) (world : ConanWorld)
    (cwd dirPath : String) (props : ConanBuildProperties) (r : RetainedLib) :
    LibResult × List ConanEvent :=
  let lookupname := jsOr r.lookupname r.id
  let lookupversion := jsOr r.lookupversion r.version
  match caughtListing (world.listing lookupname lookupversion) with
  | none => (LibResult.skip, [ConanEvent.warnNotAvailable lookupname lookupversion])
  | some possibleBuilds =>
    match findMatchingHash props possibleBuilds with
    | none => (LibResult.skip, [ConanEvent.warnNoMatch lookupname lookupversion])
    | some hash =>
      match getPackageUrl world lookupname lookupversion hash with
      | Except.error _ =>
        (LibResult.err DownloadError.missingDownloadUrl,
         [ConanEvent.downloadUrlQuery lookupname lookupversion hash])
      | Except.ok url =>
        match world.archive url with
        | none =>
          (LibResult.err (DownloadError.fetchOrExtractError url),
           [ConanEvent.downloadUrlQuery lookupname lookupversion hash,
            ConanEvent.archiveFetch url])
        | some entries =>
          (LibResult.ok
             { step := "Download of " ++ r.id ++ " " ++ lookupversion, packageUrl := url },
           [ConanEvent.downloadUrlQuery lookupname lookupversion hash,
            ConanEvent.archiveFetch url]
             ++ (extractEntries self.extractAllToRoot cwd dirPath r.id entries).map
                  ConanEvent.fs)

/-- Run `processLib` over every retained library, collecting the per-library
results and the concatenated event trace. -/
def processLibs (self : BuildEnvSetupCeConanDirect) (world : ConanWorld)
    (cwd dirPath : String) (props : ConanBuildProperties) :
    List RetainedLib → List LibResult × List ConanEvent
  | [] => ([], [])
  | r :: rest =>
    let p := processLib self world cwd dirPath props r
    let q := processLibs self world cwd dirPath props rest
    (p.1 :: q.1, p.2 ++ q.2)

/-- `Promise.all(allDownloads)` (source line 293): resolve with every pushed
download's info, or reject with a failed download's error. -/
def collectResults : List LibResult → Except DownloadError (List BuildEnvDownloadInfo)
  | [] => Except.ok []
  | LibResult.skip :: rest => collectResults rest
  | LibResult.ok info :: rest => (collectResults rest).map (fun l => info :: l)
  | LibResult.err e :: _ => Except.error e

/-- `download` (source lines 251-294): filter the libraries, fan out the
listing queries, compute the build properties once, then match and dispatch
the downloads, aggregating with `Promise.all`. -/
def download (self : BuildEnvSetupCeConanDirect) (world : ConanWorld)
    (cwd key dirPath : String) (libraryDetails : List (String × LibraryVersionDetails)) :
    Except DownloadError (List BuildEnvDownloadInfo) × List ConanEvent :=
  let retained := retainedLibs self libraryDetails
  let props := getConanBuildProperties self key
  let listingEvents := retained.map fun r =>
    ConanEvent.listingQuery (jsOr r.lookupname r.id) (jsOr r.lookupversion r.version)
  let processed := processLibs self world cwd dirPath props retained
  (collectResults processed.1, listingEvents ++ processed.2)

/-- `setup` (source lines 296-311): no-op on a falsy host, no-op when
`onlyonstaticliblink` is set and `binary` is false, otherwise `download` over
the `_.pick`-filtered library details. -/
def setup (self : BuildEnvSetupCeConanDirect) (world : ConanWorld)
    (cwd key dirPath : String) (libraryDetails : List (String × LibraryVersionDetails))
    (binary : Bool) :
    Except DownloadError (List BuildEnvDownloadInfo) × List ConanEvent :=
  if !(jsTruthyStr self.host) then (Except.ok [], [])
  else if self.onlyonstaticliblink && !binary then (Except.ok [], [])
  else
    download self world cwd key dirPath
      (libraryDetails.filter fun p => self.shouldDownloadPackage p.2)

/-! ## Concrete sample data used by witnesses and counterexamples -/

/-- The end-to-end descriptor of the spec's testable properties: gcc 11 with
libstdc++ on x86_64 Linux, Debug. -/
def gccProps : ConanBuildProperties :=
  { os := "Linux", build_type := "Debug", compiler := "gcc", compilerVersion := "11",
    compilerLibcxx := "libstdc++", arch := "x86_64", stdver := "", flagcollection := "" }

/-- Candidate settings equal to `gccProps` attribute-for-attribute. -/
def gccExactSettings : CandidateSettings :=
  { os := some "Linux", build_type := some "Debug", compiler := some "gcc",
    compilerVersion := some "11", compilerLibcxx := some "libstdc++",
    arch := some "x86_64", stdver := some "", flagcollection := some "" }

/-- Candidate settings whose `compiler` setting is the `cshared` sentinel but
whose `compiler.version` setting is a concrete version different from the
descriptor's; every attribute outside the compiler triple equals
`gccProps`. -/
def csharedPartialSettings : CandidateSettings :=
  { gccExactSettings with
    compiler := some "cshared", compilerVersion := some "9" }

/-- Candidate settings for a different compiler family (no attribute of the
compiler triple matches `gccProps`, and no sentinel). -/
def clangSettings : CandidateSettings :=
  { gccExactSettings with
    compiler := some "clang", compilerVersion := some "17", compilerLibcxx := some "libc++" }

/-- A compiler whose derived build properties equal `gccProps`. -/
def infoDemo : CompilerInfo :=
  { buildenvsetupHost := some "https://conan.test"
    buildenvsetupOnlyOnStaticLibLink := false
    compilerTypeOrGCC := "gcc"
    compilerId := "11"
    getTarget := fun _ => "x86_64"
    getLibcxx := fun _ => "libstdc++"
    hasBinariesToLink := fun _ => true
    shouldDownloadPackage := fun _ => true }

/-- The constructed instance for `infoDemo`. -/
def selfDemo : BuildEnvSetupCeConanDirect := mkBuildEnvSetupCeConanDirect infoDemo

/-- Same configuration but with no repository host configured. -/
def infoNoHost : CompilerInfo :=
  { infoDemo with buildenvsetupHost := none }

/-- The constructed instance for `infoNoHost`. -/
def selfNoHost : BuildEnvSetupCeConanDirect := mkBuildEnvSetupCeConanDirect infoNoHost

/-- A repository where `fmt` is missing (404) and every other library has one
exactly-matching candidate whose archive extracts a single header. -/
def worldDemo : ConanWorld :=
  { listing := fun name _ =>
      if name = "fmt" then ConanListingResponse.notFound
      else ConanListingResponse.ok [("h1", gccExactSettings)]
    packageTgzUrl := fun _ _ _ => some "https://dl.test/pkg.tgz"
    archive := fun _ => some [⟨"include/a.h", 2⟩] }

/-- A repository whose `download_urls` responses never contain a
`conan_package.tgz` entry. -/
def worldNoUrl : ConanWorld :=
  { listing := fun _ _ => ConanListingResponse.ok [("h1", gccExactSettings)]
    packageTgzUrl := fun _ _ _ => none
    archive := fun _ => some [] }

/-- A repository with a matching candidate and a resolvable URL whose archive
fetch/extraction fails. -/
def worldBadArchive : ConanWorld :=
  { listing := fun _ _ => ConanListingResponse.ok [("h1", gccExactSettings)]
    packageTgzUrl := fun _ _ _ => some "https://dl.test/pkg.tgz"
    archive := fun _ => none }

/-- Two requested libraries, both with packaged headers. -/
def libsDemo : List (String × LibraryVersionDetails) :=
  [("fmt", { version := "1.0", lookupname := none, lookupversion := none,
             packagedheaders := true }),
   ("zlib", { version := "2.0", lookupname := none, lookupversion := none,
              packagedheaders := true })]

/-- A single requested library. -/
def libsOne : List (String × LibraryVersionDetails) :=
  [("zlib", { version := "2.0", lookupname := none, lookupversion := none,
              packagedheaders := true })]

/-! ## Helper functions and lemmas for the claim theorems -/

/-- Whether one retained library's dispatched task fails the whole run. -/
def libIsFatal (self : BuildEnvSetupCeConanDirect) (world : ConanWorld)
    (cwd dirPath : String) (props : ConanBuildProperties) (r : RetainedLib) : Bool :=
  match (processLib self world cwd dirPath props r).1 with
  | LibResult.err _ => true
  | _ => false

/-- The download info one retained library contributes to a successful run
(`none` when the library is skipped or its task fails). -/
def libSuccessInfo (self : BuildEnvSetupCeConanDirect) (world : ConanWorld)
    (cwd dirPath : String) (props : ConanBuildProperties) (r : RetainedLib) :
    Option BuildEnvDownloadInfo :=
  match (processLib self world cwd dirPath props r).1 with
  | LibResult.ok info => some info
  | _ => none

theorem findMatchingHash_eq_find (props : ConanBuildProperties) :
    ∀ builds : List (String × CandidateSettings),
      findMatchingHash props builds
        = (builds.find? fun b => matchesBuildProperties props b.2).map Prod.fst
  | [] => rfl
  | (hash, settings) :: rest => by
    by_cases hm : matchesBuildProperties props settings = true
    · simp [findMatchingHash, List.find?, hm]
    · simp only [findMatchingHash, List.find?, hm, if_neg, Bool.false_eq_true,
        not_false_eq_true, if_false]
      exact findMatchingHash_eq_find props rest

theorem matchesAttribute_of_eq (props : ConanBuildProperties) (s : CandidateSettings)
    (key : ConanAttr) (h : s.get key = some (props.get key)) :
    matchesAttribute props s key = true := by
  unfold matchesAttribute
  split
  · rfl
  · split
    · rfl
    · simp [h]

theorem matchesBuildProperties_of_exact (props : ConanBuildProperties)
    (s : CandidateSettings) (h : settingsExactlyEqual props s = true) :
    matchesBuildProperties props s = true := by
  unfold settingsExactlyEqual at h
  unfold matchesBuildProperties
  rw [List.all_eq_true] at h ⊢
  intro a ha
  exact matchesAttribute_of_eq props s a (by simpa using h a ha)

theorem collectResults_ok_of_no_fatal (self : BuildEnvSetupCeConanDirect)
    (world : ConanWorld) (cwd dirPath : String) (props : ConanBuildProperties) :
    ∀ l : List RetainedLib,
      (∀ r ∈ l, libIsFatal self world cwd dirPath props r = false) →
      collectResults (processLibs self world cwd dirPath props l).1
        = Except.ok (l.filterMap (libSuccessInfo self world cwd dirPath props))
  | [], _ => rfl
  | r :: rest, hno => by
    have hrest := collectResults_ok_of_no_fatal self world cwd dirPath props rest
      (fun r' hr' => hno r' (List.mem_cons_of_mem r hr'))
    have hr := hno r (List.mem_cons_self r rest)
    simp only [processLibs, List.filterMap_cons]
    cases hres : (processLib self world cwd dirPath props r).1 with
    | skip =>
      simp only [collectResults, libSuccessInfo, hres]
      exact hrest
    | ok info =>
      simp only [collectResults, libSuccessInfo, hres, hrest, Except.map]
    | err e =>
      exact absurd hr (by simp [libIsFatal, hres])

theorem collectResults_error_of_fatal (self : BuildEnvSetupCeConanDirect)
    (world : ConanWorld) (cwd dirPath : String) (props : ConanBuildProperties) :
    ∀ l : List RetainedLib, ∀ r ∈ l,
      libIsFatal self world cwd dirPath props r = true →
      ∃ e, collectResults (processLibs self world cwd dirPath props l).1 = Except.error e
  | r0 :: rest, r, hr, hfatal => by
    simp only [processLibs]
    rcases List.mem_cons.mp hr with heq | hmem
    · subst heq
      cases hres : (processLib self world cwd dirPath props r).1 with
      | skip => exact absurd hfatal (by simp [libIsFatal, hres])
      | ok info => exact absurd hfatal (by simp [libIsFatal, hres])
      | err e => exact ⟨e, by simp [collectResults, hres]⟩
    · obtain ⟨e, he⟩ :=
        collectResults_error_of_fatal self world cwd dirPath props rest r hmem hfatal
      cases hres : (processLib self world cwd dirPath props r0).1 with
      | skip => exact ⟨e, by simp [collectResults, hres, he]⟩
      | ok info => exact ⟨e, by simp [collectResults, hres, he, Except.map]⟩
      | err e0 => exact ⟨e0, by simp [collectResults, hres]⟩

theorem mem_processLibs_events (self : BuildEnvSetupCeConanDirect) (world : ConanWorld)
    (cwd dirPath : String) (props : ConanBuildProperties) :
    ∀ l : List RetainedLib, ∀ r ∈ l, ∀ ev ∈ (processLib self world cwd dirPath props r).2,
      ev ∈ (processLibs self world cwd dirPath props l).2
  | r0 :: rest, r, hr, ev, hev => by
    simp only [processLibs, List.mem_append]
    rcases List.mem_cons.mp hr with heq | hmem
    · subst heq
      exact Or.inl hev
    · exact Or.inr (mem_processLibs_events self world cwd dirPath props rest r hmem ev hev)

theorem processEntry_write_implies_check (flat : Bool) (cwd downloadPath libId : String)
    (e : TarHeader) (f : String) (sz : Nat)
    (hf : ExtractEvent.wroteFile f sz ∈ processEntry flat cwd downloadPath libId e) :
    strStartsWith (pathResolve cwd (pathDirname f)) downloadPath = true := by
  unfold processEntry at hf
  by_cases hc :
      strStartsWith
        (pathResolve cwd (pathDirname (getDestinationFilepath flat downloadPath e.name libId)))
        downloadPath
  · simp only [hc, Bool.not_true, Bool.false_eq_true, if_false, List.mem_append] at hf
    rcases hf with hmk | hwr
    · cases flat <;> simp at hmk
    · simp only [List.mem_singleton, ExtractEvent.wroteFile.injEq] at hwr
      rw [hwr.1]
      exact hc
  · simp only [Bool.not_eq_true] at hc
    simp [hc] at hf

/-! ## Claim theorems -/

/-- C1, counterexample.  The zip-slip defense is a plain string-prefix check
(`resolved.startsWith(downloadPath)`), so with destination root `/tmp/build`
an archive entry `../../build-evil/x` resolves to the sibling directory
`/tmp/build-evil` — which is *not* under the directory rooted at the
destination path — yet it passes the check and the file is written there,
contradicting both halves of the claim. -/
theorem c1_counterexample :
    extractEntries false "/" "/tmp/build" "mylib" [⟨"../../build-evil/x", 5⟩]
      = [ExtractEvent.mkdir "/tmp/build-evil",
         ExtractEvent.wroteFile "/tmp/build-evil/x" 5]
    ∧ pathResolve "/" (pathDirname "/tmp/build-evil/x") = "/tmp/build-evil"
    ∧ dirLiesUnder "/tmp/build-evil" "/tmp/build" = false := by
  decide

/-- C1 (amended): if an entry's resolved destination directory does not have
the destination root as a *string prefix*, then no file is written for that
entry (only its stream is drained) and processing of all subsequent entries
of the same archive continues; consequently every file the extraction writes
has a resolved destination directory with the destination root as a string
prefix (which, unlike "lies under", admits sibling directories such as
`/tmp/build-evil` for root `/tmp/build`). -/
theorem c1_prefix_guard (flat : Bool) (cwd downloadPath libId : String)
    (entries : List TarHeader) :
    (∀ (h : TarHeader) (rest : List TarHeader),
        strStartsWith
            (pathResolve cwd
              (pathDirname (getDestinationFilepath flat downloadPath h.name libId)))
            downloadPath = false →
        extractEntries flat cwd downloadPath libId (h :: rest)
          = ExtractEvent.skippedZipSlip h.name
              :: extractEntries flat cwd downloadPath libId rest)
    ∧ (∀ (f : String) (sz : Nat),
        ExtractEvent.wroteFile f sz ∈ extractEntries flat cwd downloadPath libId entries →
        strStartsWith (pathResolve cwd (pathDirname f)) downloadPath = true) := by
  constructor
  · intro h rest hc
    simp [extractEntries, processEntry, hc]
  · induction entries with
    | nil =>
      intro f sz hf
      simp [extractEntries] at hf
    | cons e es ih =>
      intro f sz hf
      rcases List.mem_append.mp hf with hf | hf
      · exact processEntry_write_implies_check flat cwd downloadPath libId e f sz hf
      · exact ih f sz hf

/-- C1, witness: an archive `[../../evil, ok.h]` under root `/tmp/build` has
its traversal entry skipped while the following well-formed entry is still
processed, and the well-formed entry's file passes the prefix property. -/
theorem c1_witness :
    extractEntries false "/" "/tmp/build" "mylib" [⟨"../../evil", 7⟩, ⟨"ok.h", 1⟩]
      = ExtractEvent.skippedZipSlip "../../evil"
          :: extractEntries false "/" "/tmp/build" "mylib" [⟨"ok.h", 1⟩]
    ∧ strStartsWith (pathResolve "/" (pathDirname "/tmp/build/mylib/ok.h")) "/tmp/build"
        = true :=
  ⟨(c1_prefix_guard false "/" "/tmp/build" "mylib" []).1 ⟨"../../evil", 7⟩ [⟨"ok.h", 1⟩]
     (by decide),
   (c1_prefix_guard false "/" "/tmp/build" "mylib" [⟨"ok.h", 1⟩]).2 "/tmp/build/mylib/ok.h" 1
     (by decide)⟩

/-- C6: `setup` returns an empty result with no network or filesystem effect
whenever the repository host is not configured (falsy), or whenever
`onlyonstaticliblink` is set and `binary` is false; the empty return is the
successful `Except.ok []`. -/
theorem c6_setup_noop (self : BuildEnvSetupCeConanDirect) (world : ConanWorld)
    (cwd key dirPath : String) (libraryDetails : List (String × LibraryVersionDetails))
    (binary : Bool)
    (hcond : jsTruthyStr self.host = false
      ∨ (self.onlyonstaticliblink = true ∧ binary = false)) :
    setup self world cwd key dirPath libraryDetails binary = (Except.ok [], []) := by
  rcases hcond with h | ⟨h1, h2⟩
  · simp [setup, h]
  · unfold setup
    split
    · rfl
    · simp [h1, h2]

/-- C6, witness: a configuration with no host returns the empty success
result with an empty effect trace; so does a binary-only configuration asked
for a non-binary build. -/
theorem c6_witness :
    setup selfNoHost worldDemo "/" "key" "/dest" libsDemo true = (Except.ok [], []) :=
  c6_setup_noop selfNoHost worldDemo "/" "key" "/dest" libsDemo true (Or.inl (by decide))

/-- C8: a zero-size archive entry whose destination passes the path check is
completed without error: the file is created empty (`wroteFile _ 0`) at the
computed destination path and processing advances to the next entry. -/
theorem c8_zero_size_entry (flat : Bool) (cwd downloadPath libId : String)
    (h : TarHeader) (rest : List TarHeader)
    (hsize : h.size = 0)
    (hcheck : strStartsWith
        (pathResolve cwd
          (pathDirname (getDestinationFilepath flat downloadPath h.name libId)))
        downloadPath = true) :
    extractEntries flat cwd downloadPath libId (h :: rest)
      = (if flat then [] else
          [ExtractEvent.mkdir
            (pathDirname (getDestinationFilepath flat downloadPath h.name libId))])
        ++ ExtractEvent.wroteFile (getDestinationFilepath flat downloadPath h.name libId) 0
          :: extractEntries flat cwd downloadPath libId rest := by
  simp [extractEntries, processEntry, hcheck, hsize]

/-- C8, witness: a zero-byte entry `empty.txt` for library `mylib` under root
`/dest` produces the empty file `/dest/mylib/empty.txt`. -/
theorem c8_witness :
    extractEntries false "/" "/dest" "mylib" [⟨"empty.txt", 0⟩]
      = (if false then [] else
          [ExtractEvent.mkdir
            (pathDirname (getDestinationFilepath false "/dest" "empty.txt" "mylib"))])
        ++ ExtractEvent.wroteFile (getDestinationFilepath false "/dest" "empty.txt" "mylib") 0
          :: extractEntries false "/" "/dest" "mylib" [] :=
  c8_zero_size_entry false "/" "/dest" "mylib" ⟨"empty.txt", 0⟩ [] rfl (by decide)

/-- C2, counterexample.  The claim states that attribute `compiler.version`
is treated as matching regardless of the descriptor whenever the candidate's
`compiler` setting equals `"cshared"`.  In the code the sentinel test for the
`compiler.version` attribute reads `elem.settings['compiler.version']`, not
`elem.settings['compiler']`: a candidate with `compiler = "cshared"` but a
concrete, non-matching `compiler.version` (every other attribute equal to the
descriptor) is rejected, where the claim requires it to match. -/
theorem c2_counterexample :
    csharedPartialSettings.get ConanAttr.compiler = some "cshared"
    ∧ csharedPartialSettings.get ConanAttr.os = some (gccProps.get ConanAttr.os)
    ∧ csharedPartialSettings.get ConanAttr.build_type = some (gccProps.get ConanAttr.build_type)
    ∧ csharedPartialSettings.get ConanAttr.arch = some (gccProps.get ConanAttr.arch)
    ∧ csharedPartialSettings.get ConanAttr.stdver = some (gccProps.get ConanAttr.stdver)
    ∧ csharedPartialSettings.get ConanAttr.flagcollection
        = some (gccProps.get ConanAttr.flagcollection)
    ∧ findMatchingHash gccProps [("abc123", csharedPartialSettings)] = none := by
  decide

/-- C2 (amended): for every descriptor and candidate, an attribute is treated
as matching exactly when: it is `compiler` or `compiler.version` and the
candidate's *same-named* setting equals the sentinel `"cshared"`; or it is
`compiler.libcxx` and the candidate's `compiler` setting equals `"cshared"`;
or the candidate's same-named setting equals the descriptor's value
exactly. -/
theorem c2_sentinel_rule (props : ConanBuildProperties) (s : CandidateSettings)
    (key : ConanAttr) :
    matchesAttribute props s key = true ↔
      ((key = ConanAttr.compiler ∨ key = ConanAttr.compilerVersion)
          ∧ s.get key = some "cshared")
      ∨ (key = ConanAttr.compilerLibcxx ∧ s.get ConanAttr.compiler = some "cshared")
      ∨ s.get key = some (props.get key) := by
  unfold matchesAttribute
  split
  · rename_i h1
    simp only [true_iff]
    exact Or.inl h1
  · rename_i h1
    split
    · rename_i h2
      simp only [true_iff]
      exact Or.inr (Or.inl h2)
    · rename_i h2
      simp only [decide_eq_true_eq]
      constructor
      · intro h
        exact Or.inr (Or.inr h.symm)
      · rintro (h | h | h)
        · exact absurd h h1
        · exact absurd h h2
        · exact h.symm

/-- C3: `findMatchingHash` returns the hash of the first candidate, in
iteration order, whose settings satisfy the matching rule for every attribute
of the descriptor; on an empty candidate list, or when no candidate
satisfies the rule, it returns `none`; and a candidate whose settings equal
the descriptor attribute-for-attribute satisfies the rule, so when it is the
first such candidate its hash is returned.  As a Lean function of its two
inputs the matcher is total, deterministic and side-effect-free. -/
theorem c3_first_match_selection (props : ConanBuildProperties)
    (builds : List (String × CandidateSettings)) :
    findMatchingHash props builds
        = (builds.find? fun b => matchesBuildProperties props b.2).map Prod.fst
    ∧ findMatchingHash props ([] : List (String × CandidateSettings)) = none
    ∧ ((∀ b ∈ builds, matchesBuildProperties props b.2 = false) →
        findMatchingHash props builds = none)
    ∧ (∀ (hash : String) (s : CandidateSettings)
        (rest : List (String × CandidateSettings)),
        settingsExactlyEqual props s = true →
        findMatchingHash props ((hash, s) :: rest) = some hash) := by
  refine ⟨findMatchingHash_eq_find props builds, rfl, ?_, ?_⟩
  · intro h
    have hnone : (builds.find? fun b => matchesBuildProperties props b.2) = none :=
      List.find?_eq_none.mpr fun b hb => by simp [h b hb]
    rw [findMatchingHash_eq_find, hnone]
    rfl
  · intro hash s rest hs
    simp [findMatchingHash, matchesBuildProperties_of_exact props s hs]

/-- C3, witness: a list whose single candidate fails the rule yields `none`;
a list headed by an attribute-for-attribute equal candidate yields that
candidate's hash. -/
theorem c3_witness :
    findMatchingHash gccProps [("h1", clangSettings)] = none
    ∧ findMatchingHash gccProps [("abc123", gccExactSettings)] = some "abc123" :=
  ⟨(c3_first_match_selection gccProps [("h1", clangSettings)]).2.2.1 (by decide),
   (c3_first_match_selection gccProps [("abc123", gccExactSettings)]).2.2.2
     "abc123" gccExactSettings [] (by decide)⟩

/-- C7: `getDestinationFilepath` joins the download path with the entry's
base filename when `extractAllToRoot` is set, and with `libId` followed by
the full entry path otherwise; extracting an archive with entries
`include/foo.h` and `lib/libfoo.a` for library `mylib` in non-flatten mode
writes the files under `destinationRoot/mylib/...`. -/
theorem c7_destination_filepath (downloadPath zippedPath libId : String) :
    getDestinationFilepath true downloadPath zippedPath libId
        = pathJoin [downloadPath, pathBasename zippedPath]
    ∧ getDestinationFilepath false downloadPath zippedPath libId
        = pathJoin [downloadPath, libId, zippedPath]
    ∧ extractEntries false "/" "/dest" "mylib" [⟨"include/foo.h", 3⟩, ⟨"lib/libfoo.a", 4⟩]
        = [ExtractEvent.mkdir "/dest/mylib/include",
           ExtractEvent.wroteFile "/dest/mylib/include/foo.h" 3,
           ExtractEvent.mkdir "/dest/mylib/lib",
           ExtractEvent.wroteFile "/dest/mylib/lib/libfoo.a" 4] :=
  ⟨rfl, rfl, by decide⟩

/-- C9: the build-properties record derived by `getConanBuildProperties` has
`os = "Linux"`, `build_type = "Debug"`, `stdver = ""` and
`flagcollection = ""` for every target key, its `compiler.version` attribute
is the compiler's id, and every attribute is a present string. -/
theorem c9_build_properties_constants (self : BuildEnvSetupCeConanDirect) (key : String) :
    (getConanBuildProperties self key).os = "Linux"
    ∧ (getConanBuildProperties self key).build_type = "Debug"
    ∧ (getConanBuildProperties self key).stdver = ""
    ∧ (getConanBuildProperties self key).flagcollection = ""
    ∧ (getConanBuildProperties self key).compilerVersion = self.compilerId
    ∧ ∀ a : ConanAttr, ∃ s : String, (getConanBuildProperties self key).get a = s :=
  ⟨rfl, rfl, rfl, rfl, rfl, fun a => ⟨(getConanBuildProperties self key).get a, rfl⟩⟩

/-- C10: the constructor sets `extractAllToRoot` to `false` and no operation
mutates it, so extraction always takes the non-flatten branch: every entry's
destination is `path.join(downloadPath, libId, entryName)` and, when the path
check passes, the destination directory is created with `mkdirp` before the
file is written. -/
theorem c10_never_flatten (info : CompilerInfo) :
    (mkBuildEnvSetupCeConanDirect info).extractAllToRoot = false
    ∧ ∀ (cwd downloadPath libId : String) (h : TarHeader),
        processEntry (mkBuildEnvSetupCeConanDirect info).extractAllToRoot
            cwd downloadPath libId h
          = (if !(strStartsWith
                (pathResolve cwd (pathDirname (pathJoin [downloadPath, libId, h.name])))
                downloadPath) then
              [ExtractEvent.skippedZipSlip h.name]
            else
              [ExtractEvent.mkdir (pathDirname (pathJoin [downloadPath, libId, h.name])),
               ExtractEvent.wroteFile (pathJoin [downloadPath, libId, h.name]) h.size]) :=
  ⟨rfl, fun _ _ _ _ => rfl⟩

/-- C4: a listing-phase failure for one retained library — a 404 or any
transport failure of `getAllPossibleBuilds`, both of which the `.catch`
turns into a falsy value — does not fail the provisioning run: the library
contributes no result, a warning is logged, and (provided no retained
library's dispatched download fails) the run resolves successfully with the
results of the remaining libraries.  A library whose candidate list matches
no hash is likewise omitted with a warning. -/
theorem c4_listing_failure_tolerated (self : BuildEnvSetupCeConanDirect)
    (world : ConanWorld) (cwd key dirPath : String)
    (libraryDetails : List (String × LibraryVersionDetails)) (r : RetainedLib)
    (hmem : r ∈ retainedLibs self libraryDetails)
    (hNoFatal : ∀ r' ∈ retainedLibs self libraryDetails,
        libIsFatal self world cwd dirPath (getConanBuildProperties self key) r' = false)
    (hskip :
      caughtListing (world.listing (jsOr r.lookupname r.id) (jsOr r.lookupversion r.version))
          = none
      ∨ ∃ builds,
          caughtListing
              (world.listing (jsOr r.lookupname r.id) (jsOr r.lookupversion r.version))
            = some builds
          ∧ findMatchingHash (getConanBuildProperties self key) builds = none) :
    (download self world cwd key dirPath libraryDetails).1
        = Except.ok ((retainedLibs self libraryDetails).filterMap
            (libSuccessInfo self world cwd dirPath (getConanBuildProperties self key)))
    ∧ libSuccessInfo self world cwd dirPath (getConanBuildProperties self key) r = none
    ∧ (ConanEvent.warnNotAvailable (jsOr r.lookupname r.id) (jsOr r.lookupversion r.version)
          ∈ (download self world cwd key dirPath libraryDetails).2
        ∨ ConanEvent.warnNoMatch (jsOr r.lookupname r.id) (jsOr r.lookupversion r.version)
          ∈ (download self world cwd key dirPath libraryDetails).2) := by
  have hok :
      (download self world cwd key dirPath libraryDetails).1
        = Except.ok ((retainedLibs self libraryDetails).filterMap
            (libSuccessInfo self world cwd dirPath (getConanBuildProperties self key))) :=
    collectResults_ok_of_no_fatal self world cwd dirPath (getConanBuildProperties self key)
      (retainedLibs self libraryDetails) hNoFatal
  refine ⟨hok, ?_, ?_⟩
  · rcases hskip with hl | ⟨builds, hb, hn⟩
    · simp [libSuccessInfo, processLib, hl]
    · simp [libSuccessInfo, processLib, hb, hn]
  · rcases hskip with hl | ⟨builds, hb, hn⟩
    · refine Or.inl ?_
      have hev :
          ConanEvent.warnNotAvailable (jsOr r.lookupname r.id) (jsOr r.lookupversion r.version)
            ∈ (processLib self world cwd dirPath (getConanBuildProperties self key) r).2 := by
        simp [processLib, hl]
      exact List.mem_append_right _
        (mem_processLibs_events self world cwd dirPath (getConanBuildProperties self key)
          (retainedLibs self libraryDetails) r hmem _ hev)
    · refine Or.inr ?_
      have hev :
          ConanEvent.warnNoMatch (jsOr r.lookupname r.id) (jsOr r.lookupversion r.version)
            ∈ (processLib self world cwd dirPath (getConanBuildProperties self key) r).2 := by
        simp [processLib, hb, hn]
      exact List.mem_append_right _
        (mem_processLibs_events self world cwd dirPath (getConanBuildProperties self key)
          (retainedLibs self libraryDetails) r hmem _ hev)

/-- C4, witness: with `fmt` returning 404 and `zlib` fully available, the
run succeeds, omits `fmt`, and logs the `not available` warning for it. -/
theorem c4_witness :
    (download selfDemo worldDemo "/" "key" "/dest" libsDemo).1
        = Except.ok ((retainedLibs selfDemo libsDemo).filterMap
            (libSuccessInfo selfDemo worldDemo "/" "/dest"
              (getConanBuildProperties selfDemo "key")))
    ∧ libSuccessInfo selfDemo worldDemo "/" "/dest" (getConanBuildProperties selfDemo "key")
        ⟨"fmt", "1.0", none, none⟩ = none
    ∧ (ConanEvent.warnNotAvailable "fmt" "1.0"
          ∈ (download selfDemo worldDemo "/" "key" "/dest" libsDemo).2
        ∨ ConanEvent.warnNoMatch "fmt" "1.0"
          ∈ (download selfDemo worldDemo "/" "key" "/dest" libsDemo).2) :=
  c4_listing_failure_tolerated selfDemo worldDemo "/" "key" "/dest" libsDemo
    ⟨"fmt", "1.0", none, none⟩ (by decide) (by decide) (Or.inl (by decide))

/-- C5: once a hash has been matched for a library, failures are fatal to the
run: `getPackageUrl` throws when the repository's response has no (truthy)
`conan_package.tgz` entry, and a URL-resolution error or a download/extraction
failure for any matched library makes the aggregated `Promise.all` of
`download` reject instead of being absorbed like a listing failure. -/
theorem c5_post_match_failure_fatal :
    (∀ (world : ConanWorld) (n v h : String),
        world.packageTgzUrl n v h = none →
        getPackageUrl world n v h
          = Except.error "Unable to get package download URL from conan.")
    ∧ (∀ (self : BuildEnvSetupCeConanDirect) (world : ConanWorld)
        (cwd key dirPath : String)
        (libraryDetails : List (String × LibraryVersionDetails)) (r : RetainedLib)
        (builds : List (String × CandidateSettings)) (hash : String),
        r ∈ retainedLibs self libraryDetails →
        caughtListing
            (world.listing (jsOr r.lookupname r.id) (jsOr r.lookupversion r.version))
          = some builds →
        findMatchingHash (getConanBuildProperties self key) builds = some hash →
        ((∃ msg, getPackageUrl world (jsOr r.lookupname r.id) (jsOr r.lookupversion r.version)
              hash = Except.error msg)
          ∨ (∃ url, getPackageUrl world (jsOr r.lookupname r.id)
                (jsOr r.lookupversion r.version) hash = Except.ok url
              ∧ world.archive url = none)) →
        ∃ e, (download self world cwd key dirPath libraryDetails).1 = Except.error e) := by
  constructor
  · intro world n v h hnone
    simp [getPackageUrl, hnone]
  · intro self world cwd key dirPath libraryDetails r builds hash hmem hcaught hfind hfail
    have hfatal :
        libIsFatal self world cwd dirPath (getConanBuildProperties self key) r = true := by
      rcases hfail with ⟨msg, hmsg⟩ | ⟨url, hurl, harch⟩
      · simp [libIsFatal, processLib, hcaught, hfind, hmsg]
      · simp [libIsFatal, processLib, hcaught, hfind, hurl, harch]
    exact collectResults_error_of_fatal self world cwd dirPath
      (getConanBuildProperties self key) (retainedLibs self libraryDetails) r hmem hfatal

/-- C5, witness: a repository answer without a `conan_package.tgz` entry makes
`getPackageUrl` throw, and a matched library whose archive fetch fails makes
the whole `download` reject. -/
theorem c5_witness :
    getPackageUrl worldNoUrl "zlib" "2.0" "h1"
        = Except.error "Unable to get package download URL from conan."
    ∧ ∃ e, (download selfDemo worldBadArchive "/" "key" "/dest" libsOne).1
        = Except.error e :=
  ⟨c5_post_match_failure_fatal.1 worldNoUrl "zlib" "2.0" "h1" rfl,
   c5_post_match_failure_fatal.2 selfDemo worldBadArchive "/" "key" "/dest" libsOne
     ⟨"zlib", "2.0", none, none⟩ [("h1", gccExactSettings)] "h1"
     (by decide) (by decide) (by decide)
     (Or.inr ⟨"https://dl.test/pkg.tgz", rfl, rfl⟩)⟩

end CeConan
